import Mathlib

/-!
Shallow embedding of src/struct_util.rs (vmm-sys-util).

The Rust module treats a record of type T purely as its raw byte image of
length sizeof(T).  We therefore model:
  * a record value of type T as a list of byte values (length = sizeof(T));
  * the byte stream as the list of bytes still available to read, in order
    (a Cursor position is represented by having already dropped the
    consumed prefix);
  * read_exact as: succeed and consume exactly n bytes when at least n are
    available, otherwise fail (short read, end of stream, or an I/O error
    are all collapsed into failure, exactly as the Rust code collapses any
    read_exact error into Error::ReadStruct).
Byte values are modelled as Nat; nothing in the module inspects a byte, so
the u8 range plays no role in any claim.
-/

namespace StructUtil

/-- Errors related to struct manipulation (enum Error in the source). -/
inductive Error where
  /-- Failed to read struct. -/
  | ReadStruct
deriving DecidableEq, Repr

/-- A byte stream: the bytes still available to read, in order. -/
abbrev ByteStream := List Nat

/-- Embedding of Read::read_exact specialised to "fail on short read":
reads exactly n bytes when available, returning them and the rest of the
stream; returns none when fewer than n bytes remain.  With n = 0 it always
succeeds without consuming anything, matching read_exact on an empty
buffer. -/
def readExact (f : ByteStream) (n : Nat) : Option (List Nat × ByteStream) :=
  if n ≤ f.length then some (f.take n, f.drop n) else none

/-- Embedding of read_struct: sz is sizeof(T), f the input stream, out the
raw byte image of the record the caller passes by mutable reference.  On
success the record is entirely overwritten by the bytes read, so the
resulting record image is exactly the sz bytes consumed; on failure the
call returns Error::ReadStruct (the partially overwritten record is
unspecified and never treated as a result). -/
def read_struct (sz : Nat) (f : ByteStream) (out : List Nat) :
    Except Error (List Nat × ByteStream) :=
  match readExact f sz with
  | some (bytes, fNext) => Except.ok (bytes, fNext)
  | none => Except.error Error.ReadStruct

/-- Interpretation of a byte buffer as len consecutive records of size sz:
record i is the i-th sz-byte chunk.  This is how the Vec of T returned by
read_struct_slice relates to the raw bytes of its backing storage. -/
def chunks (sz : Nat) : Nat → List Nat → List (List Nat)
  | 0, _ => []
  | n + 1, bytes => bytes.take sz :: chunks sz n (bytes.drop sz)

/-- Embedding of read_struct_slice: sz is sizeof(T), len the number of
records.  The source allocates Vec::with_capacity(len), calls set_len(len)
so the buffer holds len records of uninitialized bytes, then bulk-reads
sz * len bytes over that buffer.  The parameter uninit models the junk
contents of that fresh allocation: on a successful read the first sz * len
buffer bytes are the bytes read and only bytes beyond that (none, in the
real allocation) keep their junk value; on failure the buffer is discarded
and Error::ReadStruct is returned. -/
def read_struct_slice (sz len : Nat) (f : ByteStream) (uninit : List Nat) :
    Except Error (List (List Nat) × ByteStream) :=
  match readExact f (sz * len) with
  | some (bytes, fNext) =>
      Except.ok (chunks sz len (bytes ++ uninit.drop (sz * len)), fNext)
  | none => Except.error Error.ReadStruct

/-- Modelled from the spec: the array reader expressed as repeated calls to
the single-record reader (spec section 2: "the array reader could be
expressed as repeated calls to the single-record reader").  Used only as
the reference side of the refinement claim; the target record handed to
each single read is a fresh default image. -/
def read_struct_iter (sz : Nat) : Nat → ByteStream → Except Error (List (List Nat) × ByteStream)
  | 0, f => Except.ok ([], f)
  | n + 1, f =>
      match read_struct sz f (List.replicate sz 0) with
      | Except.ok (r, fNext) =>
          match read_struct_iter sz n fNext with
          | Except.ok (rs, fFinal) => Except.ok (r :: rs, fFinal)
          | Except.error e => Except.error e
      | Except.error e => Except.error e

/-! Helper lemmas about the embedded operations. -/

theorem read_struct_ok (sz : Nat) (f : ByteStream) (out : List Nat) (h : sz ≤ f.length) :
    read_struct sz f out = Except.ok (f.take sz, f.drop sz) := by
  simp only [read_struct, readExact, if_pos h]

theorem read_struct_err (sz : Nat) (f : ByteStream) (out : List Nat) (h : f.length < sz) :
    read_struct sz f out = Except.error Error.ReadStruct := by
  simp only [read_struct, readExact, if_neg (Nat.not_le_of_lt h)]

theorem chunks_append (sz : Nat) :
    ∀ (len : Nat) (bytes junk : List Nat), sz * len ≤ bytes.length →
      chunks sz len (bytes ++ junk) = chunks sz len bytes
  | 0, _, _, _ => rfl
  | len + 1, bytes, junk, h => by
    have h' : sz * len + sz ≤ bytes.length := by rw [← Nat.mul_succ]; exact h
    have hsz : sz ≤ bytes.length := by omega
    have hrec : sz * len ≤ (bytes.drop sz).length := by rw [List.length_drop]; omega
    simp only [chunks]
    rw [List.take_append_of_le_length hsz, List.drop_append_of_le_length hsz,
      chunks_append sz len (bytes.drop sz) junk hrec]

theorem chunks_take (sz : Nat) :
    ∀ (n : Nat) (f : List Nat), chunks sz n (f.take (sz * n)) = chunks sz n f
  | 0, _ => rfl
  | n + 1, f => by
    have hm : sz * (n + 1) = sz * n + sz := Nat.mul_succ sz n
    have hle : sz ≤ sz * n + sz := Nat.le_add_left sz (sz * n)
    simp only [chunks, hm]
    rw [List.take_take, Nat.min_eq_left hle, List.drop_take, Nat.add_sub_cancel,
      chunks_take sz n (f.drop sz)]

theorem read_struct_slice_ok (sz len : Nat) (f : ByteStream) (uninit : List Nat)
    (h : sz * len ≤ f.length) :
    read_struct_slice sz len f uninit = Except.ok (chunks sz len f, f.drop (sz * len)) := by
  have hlen : sz * len ≤ (f.take (sz * len)).length := by
    rw [List.length_take]; omega
  simp only [read_struct_slice, readExact, if_pos h]
  rw [chunks_append sz len (f.take (sz * len)) (uninit.drop (sz * len)) hlen,
    chunks_take sz len f]

theorem read_struct_slice_err (sz len : Nat) (f : ByteStream) (uninit : List Nat)
    (h : f.length < sz * len) :
    read_struct_slice sz len f uninit = Except.error Error.ReadStruct := by
  simp only [read_struct_slice, readExact, if_neg (Nat.not_le_of_lt h)]

theorem read_struct_iter_ok (sz : Nat) :
    ∀ (n : Nat) (f : ByteStream), sz * n ≤ f.length →
      read_struct_iter sz n f = Except.ok (chunks sz n f, f.drop (sz * n)) := by
  intro n
  induction n with
  | zero => intro f _; simp [read_struct_iter, chunks]
  | succ n ih =>
    intro f h
    have h' : sz * n + sz ≤ f.length := by rw [← Nat.mul_succ]; exact h
    have hsz : sz ≤ f.length := by omega
    have hdrop : sz * n ≤ (f.drop sz).length := by rw [List.length_drop]; omega
    have hsum : sz + sz * n = sz * (n + 1) := by rw [Nat.mul_succ]; omega
    simp only [read_struct_iter, read_struct_ok sz f _ hsz, ih (f.drop sz) hdrop]
    simp only [chunks, List.drop_drop, hsum]

theorem read_struct_iter_err (sz : Nat) :
    ∀ (n : Nat) (f : ByteStream), f.length < sz * n →
      read_struct_iter sz n f = Except.error Error.ReadStruct := by
  intro n
  induction n with
  | zero => intro f h; simp at h
  | succ n ih =>
    intro f h
    have h' : f.length < sz * n + sz := by rw [← Nat.mul_succ]; exact h
    by_cases hsz : sz ≤ f.length
    · have hdrop : (f.drop sz).length < sz * n := by rw [List.length_drop]; omega
      simp only [read_struct_iter, read_struct_ok sz f _ hsz, ih (f.drop sz) hdrop]
    · simp only [read_struct_iter, read_struct_err sz f _ (Nat.lt_of_not_le hsz)]

theorem flatten_length_eq (sz : Nat) :
    ∀ (vs : List (List Nat)), (∀ v ∈ vs, v.length = sz) →
      vs.flatten.length = sz * vs.length
  | [], _ => by simp
  | v :: vs, h => by
    have hv : v.length = sz := h v (List.mem_cons_self v vs)
    have hrest : ∀ w ∈ vs, w.length = sz := fun w hw => h w (List.mem_cons_of_mem v hw)
    simp only [List.flatten_cons, List.length_append, List.length_cons, hv,
      flatten_length_eq sz vs hrest, Nat.mul_succ]
    omega

theorem chunks_flatten (sz : Nat) :
    ∀ (vs : List (List Nat)), (∀ v ∈ vs, v.length = sz) →
      chunks sz vs.length vs.flatten = vs
  | [], _ => rfl
  | v :: vs, h => by
    have hv : v.length = sz := h v (List.mem_cons_self v vs)
    have hrest : ∀ w ∈ vs, w.length = sz := fun w hw => h w (List.mem_cons_of_mem v hw)
    simp only [List.length_cons, List.flatten_cons, chunks]
    rw [List.take_left' hv, List.drop_left' hv, chunks_flatten sz vs hrest]

/-! Claim theorems. -/

/-- Claim C1: single-record round-trip.  Writing the raw byte image v of a
record to a stream (followed by any later bytes) and calling read_struct on
that stream with any target record yields Ok, the target record becoming
byte-for-byte equal to v, with the later bytes left unread. -/
theorem read_struct_round_trip (v rest out : List Nat) :
    read_struct v.length (v ++ rest) out = Except.ok (v, rest) := by
  rw [read_struct_ok v.length (v ++ rest) out (by simp), List.take_left, List.drop_left]

/-- Claim C2: array round-trip.  For any sequence vs of records each of raw
size sz, writing their concatenated byte images to a stream and calling
read_struct_slice with count vs.length yields Ok with a sequence
element-wise identical to vs, whatever the junk contents of the fresh
allocation were. -/
theorem read_struct_slice_round_trip (sz : Nat) (vs : List (List Nat)) (rest uninit : List Nat)
    (h : ∀ v ∈ vs, v.length = sz) :
    read_struct_slice sz vs.length (vs.flatten ++ rest) uninit = Except.ok (vs, rest) := by
  have hlen : vs.flatten.length = sz * vs.length := flatten_length_eq sz vs h
  rw [read_struct_slice_ok sz vs.length (vs.flatten ++ rest) uninit
    (by rw [List.length_append, hlen]; exact Nat.le_add_right _ _)]
  rw [List.drop_left' hlen, chunks_append sz vs.length vs.flatten rest (le_of_eq hlen.symm),
    chunks_flatten sz vs h]

theorem read_struct_slice_round_trip_witness :
    read_struct_slice 2 2 ([1, 2, 3, 4, 9] : ByteStream) [7, 7, 7, 7] =
      Except.ok ([[1, 2], [3, 4]], [9]) :=
  read_struct_slice_round_trip 2 [[1, 2], [3, 4]] [9] [7, 7, 7, 7] (by decide)

/-- Claim C3: single-record short read.  If sizeof is positive and the
stream provides exactly k bytes with k at most sizeof minus one, read_struct
returns the ReadStruct error (never Ok). -/
theorem read_struct_short_read (sz k : Nat) (f : ByteStream) (out : List Nat)
    (hsz : 0 < sz) (hk : k ≤ sz - 1) (hf : f.length = k) :
    read_struct sz f out = Except.error Error.ReadStruct :=
  read_struct_err sz f out (by omega)

theorem read_struct_short_read_witness :
    read_struct 2 ([5] : ByteStream) [0, 0] = Except.error Error.ReadStruct :=
  read_struct_short_read 2 1 [5] [0, 0] (by decide) (by decide) (by decide)

/-- Claim C4: array short read.  If the stream provides strictly fewer than
sz * len bytes, read_struct_slice returns the ReadStruct error and the
Ok-with-sequence outcome is impossible. -/
theorem read_struct_slice_short_read (sz len : Nat) (f : ByteStream) (uninit : List Nat)
    (h : f.length < sz * len) :
    read_struct_slice sz len f uninit = Except.error Error.ReadStruct ∧
    ∀ rs fNext, read_struct_slice sz len f uninit ≠ Except.ok (rs, fNext) := by
  have he := read_struct_slice_err sz len f uninit h
  refine ⟨he, fun rs fNext hok => ?_⟩
  rw [he] at hok
  exact Except.noConfusion hok

theorem read_struct_slice_short_read_witness :
    read_struct_slice 2 2 ([1, 2, 3] : ByteStream) [7, 7, 7, 7] =
      Except.error Error.ReadStruct :=
  (read_struct_slice_short_read 2 2 [1, 2, 3] [7, 7, 7, 7] (by decide)).1

/-- Claim C5: zero-length array.  For every record size and every stream,
read_struct_slice with count 0 returns Ok with the empty sequence and
consumes zero bytes (the stream is returned unchanged). -/
theorem read_struct_slice_zero_count (sz : Nat) (f : ByteStream) (uninit : List Nat) :
    read_struct_slice sz 0 f uninit = Except.ok ([], f) := by
  rw [read_struct_slice_ok sz 0 f uninit (by simp)]
  simp [chunks]

/-- Claim C6: exact consumption and cursor advancement.  A successful
read_struct consumes exactly sz bytes: the record equals the first sz bytes
of the stream and the returned stream is the stream with those bytes
dropped, so a second read of sz2 bytes (when available) yields exactly the
next consecutive slice and leaves the cursor after sz + sz2 bytes. -/
theorem read_struct_exact_consumption (sz sz2 : Nat) (f : ByteStream)
    (out out2 r : List Nat) (fNext : ByteStream)
    (h : read_struct sz f out = Except.ok (r, fNext)) :
    r = f.take sz ∧ fNext = f.drop sz ∧
    (sz2 ≤ fNext.length →
      read_struct sz2 fNext out2 = Except.ok ((f.drop sz).take sz2, f.drop (sz + sz2))) := by
  by_cases hle : sz ≤ f.length
  · rw [read_struct_ok sz f out hle] at h
    have hpair := Except.ok.inj h
    have hr : r = f.take sz := (congrArg Prod.fst hpair).symm
    have hf : fNext = f.drop sz := (congrArg Prod.snd hpair).symm
    refine ⟨hr, hf, fun h2 => ?_⟩
    rw [hf] at h2 ⊢
    rw [read_struct_ok sz2 (f.drop sz) out2 h2, List.drop_drop]
  · rw [read_struct_err sz f out (Nat.lt_of_not_le hle)] at h
    exact Except.noConfusion h

theorem read_struct_exact_consumption_witness :
    read_struct 1 ([20, 30] : ByteStream) [0] = Except.ok ([20], [30]) := by
  have h := read_struct_exact_consumption 1 1 ([10, 20, 30] : ByteStream)
    [0] [0] [10] [20, 30] (by rfl)
  simpa using h.2.2 (by decide)

/-- Claim C7: bulk read equals repeated single reads.  For every record
size, count, stream and junk contents of the fresh allocation, the bulk
read_struct_slice returns exactly the outcome (records, final stream
position, or error) that count successive read_struct calls produce in
stream order. -/
theorem read_struct_slice_eq_iter (sz n : Nat) (f : ByteStream) (uninit : List Nat) :
    read_struct_slice sz n f uninit = read_struct_iter sz n f := by
  rcases le_or_lt (sz * n) f.length with h | h
  · rw [read_struct_slice_ok sz n f uninit h, read_struct_iter_ok sz n f h]
  · rw [read_struct_slice_err sz n f uninit h, read_struct_iter_err sz n f h]

/-- Claim C8: no uninitialized-memory exposure on the failure path of the
array reader.  The outcome never depends on the junk contents of the fresh
allocation (so no uninitialized byte is read or exposed), any successful
result consists purely of chunks of the bytes read from the stream, and on
a short stream the call returns the ReadStruct error, which carries no
record at all. -/
theorem read_struct_slice_no_uninit_leak (sz len : Nat) (f : ByteStream) :
    (∀ u₁ u₂ : List Nat, read_struct_slice sz len f u₁ = read_struct_slice sz len f u₂) ∧
    (∀ (u rs : List (List Nat)) (fNext : ByteStream),
      read_struct_slice sz len f (u.flatten) = Except.ok (rs, fNext) → rs = chunks sz len f) ∧
    (∀ u : List Nat, f.length < sz * len →
      read_struct_slice sz len f u = Except.error Error.ReadStruct) := by
  rcases le_or_lt (sz * len) f.length with h | h
  · refine ⟨fun u₁ u₂ => ?_, fun u rs fNext hok => ?_, fun u hlt => absurd hlt (by omega)⟩
    · rw [read_struct_slice_ok sz len f u₁ h, read_struct_slice_ok sz len f u₂ h]
    · rw [read_struct_slice_ok sz len f u.flatten h] at hok
      exact (congrArg Prod.fst (Except.ok.inj hok)).symm
  · refine ⟨fun u₁ u₂ => ?_, fun u rs fNext hok => ?_, fun u hlt =>
      read_struct_slice_err sz len f u hlt⟩
    · rw [read_struct_slice_err sz len f u₁ h, read_struct_slice_err sz len f u₂ h]
    · rw [read_struct_slice_err sz len f u.flatten h] at hok
      exact Except.noConfusion hok

theorem read_struct_slice_no_uninit_leak_witness :
    read_struct_slice 2 1 ([5] : ByteStream) [8, 8] = Except.error Error.ReadStruct :=
  (read_struct_slice_no_uninit_leak 2 1 [5]).2.2 [8, 8] (by decide)

/-- Claim C9: zero-sized record.  For a record type of size zero and every
stream, read_struct returns Ok, consumes zero bytes (the stream is returned
unchanged), and the target record — necessarily the empty byte image — is
returned unchanged. -/
theorem read_struct_zero_sized (f : ByteStream) (out : List Nat) (h : out.length = 0) :
    read_struct 0 f out = Except.ok (out, f) := by
  rw [read_struct_ok 0 f out (Nat.zero_le _), List.length_eq_zero.mp h]
  simp

theorem read_struct_zero_sized_witness :
    read_struct 0 ([1, 2] : ByteStream) [] = Except.ok ([], [1, 2]) :=
  read_struct_zero_sized [1, 2] [] rfl

/-- Claim C10: determinism.  The outcome of read_struct depends only on the
record size and the stream (not on the prior contents of the target
record), and the outcome of read_struct_slice depends only on the record
size, the count and the stream (not on the junk contents of the fresh
allocation); identical stream state and arguments therefore give identical
outcomes, including the bytes consumed. -/
theorem read_struct_deterministic (sz len : Nat) (f : ByteStream)
    (out₁ out₂ u₁ u₂ : List Nat) :
    read_struct sz f out₁ = read_struct sz f out₂ ∧
    read_struct_slice sz len f u₁ = read_struct_slice sz len f u₂ := by
  refine ⟨rfl, ?_⟩
  rcases le_or_lt (sz * len) f.length with h | h
  · rw [read_struct_slice_ok sz len f u₁ h, read_struct_slice_ok sz len f u₂ h]
  · rw [read_struct_slice_err sz len f u₁ h, read_struct_slice_err sz len f u₂ h]

end StructUtil
